import Mathlib

/-!
Shallow embedding of the ardefi DEX indexing pipeline: the data model,
swap-event extraction, USD price resolution, the store writers and the
polling cycle of indexer/index.js, together with the frontend pools
component price resolver and metrics aggregation.

Modelling conventions: hex address strings are abstracted to their numeric
value (lower-casing an address string is then the identity, so the
pervasive toLowerCase() calls disappear); raw uint256 quantities are
naturals; decimal-normalized amounts, prices and USD values are exact
rationals standing in for the IEEE doubles of the JS code; fallible RPC
reads whose exceptions are caught are made explicit with Option-valued
inputs.
-/

namespace Ardefi

/-- Blockchain addresses and transaction hashes, abstracted to numbers. -/
abbrev Addr : Type := ℕ

/-- Arc testnet USDC, the designated stable asset (USDC_ADDRESS in
indexer/index.js and in the pools component). -/
def USDC_ADDRESS : Addr := 0x3600000000000000000000000000000000000000

/-- Decimal normalization of a raw integer amount:
Number(raw) / 10 ** decimals, as an exact rational. -/
def normUnits (raw : ℕ) (decimals : ℕ) : ℚ := (raw : ℚ) / 10 ^ decimals

/-- One consistent read-view of the chain, covering everything the code
reads over RPC. tokenA/tokenB are the pool token getters; reserveA and
reserveB are the pool contract stored reserve counters (documented in
CONTRACT_BUG_ANALYSIS.md as able to drift from actual balances);
balanceOf token holder is the ERC20 balance read; decimals models the
result of getTokenInfo (KNOWN_TOKENS table, contract read, or the
default 18). -/
structure Chain where
  tokenA : Addr → Addr
  tokenB : Addr → Addr
  reserveA : Addr → ℕ
  reserveB : Addr → ℕ
  balanceOf : Addr → Addr → ℕ
  decimals : Addr → ℕ

namespace Indexer

/-- The pool-scan loop inside getTokenPriceInUSD of indexer/index.js: walk
the pool list looking for a pool pairing USDC with the token; on a match,
price is the decimal-normalized USDC reserve divided by the
decimal-normalized token reserve, where both reserves are read from the
pool contract stored counters via the reserveA()/reserveB() contract
calls. A matching pool whose token-side normalized reserve is zero does
not return; the scan continues with the remaining pools, and the
fall-through result is 0. -/
def findUSDCPairPrice (c : Chain) (token : Addr) : List Addr → ℚ
  | [] => 0
  | p :: rest =>
    let a := c.tokenA p
    let b := c.tokenB p
    if a = USDC_ADDRESS ∧ b = token then
      let raF := normUnits (c.reserveA p) 6
      let rbF := normUnits (c.reserveB p) (c.decimals b)
      if 0 < rbF then raF / rbF else findUSDCPairPrice c token rest
    else if b = USDC_ADDRESS ∧ a = token then
      let raF := normUnits (c.reserveA p) (c.decimals a)
      let rbF := normUnits (c.reserveB p) 6
      if 0 < raF then rbF / raF else findUSDCPairPrice c token rest
    else findUSDCPairPrice c token rest

/-- getTokenPriceInUSD of indexer/index.js: USDC itself is 1; otherwise
the direct USDC-pair scan over the pool list; 0 when no pool pairs the
token with USDC (there is no multi-hop search in this implementation). -/
def getTokenPriceInUSD (c : Chain) (token : Addr) (pools : List Addr) : ℚ :=
  if token = USDC_ADDRESS then 1 else findUSDCPairPrice c token pools

/-- One raw Swap log:
event Swap(sender, amountAIn, amountBIn, amountAOut, amountBOut, to). -/
structure SwapLog where
  amountAIn : ℕ
  amountBIn : ℕ
  amountAOut : ℕ
  amountBOut : ℕ
  txHash : ℕ
  blockNumber : ℕ
deriving DecidableEq

/-- A normalized swap event as produced by processSwapEvents. -/
structure SwapEvent where
  poolAddress : Addr
  tokenIn : Addr
  tokenOut : Addr
  amountIn : ℕ
  amountOut : ℕ
  timestamp : ℤ
  txHash : ℕ
  blockNumber : ℕ
deriving DecidableEq

/-- The direction resolution in the body of the processSwapEvents loop: a
nonzero amountAIn gives tokenIn = tokenA and tokenOut = tokenB, with
amounts (amountAIn, amountBOut); otherwise a nonzero amountBIn gives
tokenIn = tokenB and tokenOut = tokenA with amounts (amountBIn,
amountAOut); a log with both in-amounts zero is skipped. blockTs is the
per-block timestamp lookup (getBlock). -/
def classifySwap (poolAddress tokenA tokenB : Addr) (blockTs : ℕ → ℤ)
    (l : SwapLog) : Option SwapEvent :=
  if 0 < l.amountAIn then
    some { poolAddress := poolAddress, tokenIn := tokenA, tokenOut := tokenB,
           amountIn := l.amountAIn, amountOut := l.amountBOut,
           timestamp := blockTs l.blockNumber, txHash := l.txHash,
           blockNumber := l.blockNumber }
  else if 0 < l.amountBIn then
    some { poolAddress := poolAddress, tokenIn := tokenB, tokenOut := tokenA,
           amountIn := l.amountBIn, amountOut := l.amountAOut,
           timestamp := blockTs l.blockNumber, txHash := l.txHash,
           blockNumber := l.blockNumber }
  else none

/-- processSwapEvents for one pool: the swap-log query may throw (modelled
by logsResult = none), in which case the catch block logs and returns the
empty list; otherwise each log is classified and malformed logs are
dropped. -/
def processSwapEvents (c : Chain) (blockTs : ℕ → ℤ)
    (logsResult : Option (List SwapLog)) (poolAddress : Addr) :
    List SwapEvent :=
  match logsResult with
  | none => []
  | some logs =>
    logs.filterMap
      (classifySwap poolAddress (c.tokenA poolAddress) (c.tokenB poolAddress)
        blockTs)

/-- A row of the swap_events table (tx_hash is UNIQUE in
supabase-schema.sql). -/
structure SwapRow where
  tx_hash : ℕ
  pool_address : Addr
  token_in : Addr
  token_out : Addr
  amount_in : ℕ
  amount_out : ℕ
  block_number : ℕ
  timestamp : ℤ
deriving DecidableEq

/-- The row written by storeSwapEvents for one event. -/
def swapRowOfEvent (e : SwapEvent) : SwapRow :=
  { tx_hash := e.txHash, pool_address := e.poolAddress,
    token_in := e.tokenIn, token_out := e.tokenOut,
    amount_in := e.amountIn, amount_out := e.amountOut,
    block_number := e.blockNumber, timestamp := e.timestamp }

/-- supabase upsert on swap_events with onConflict tx_hash: the unique key
makes the insert replace the existing row carrying the same hash, so the
new row lands in the table and every older row with that hash is gone. -/
def upsertSwapRow (r : SwapRow) (tbl : List SwapRow) : List SwapRow :=
  r :: tbl.filter (fun q => q.tx_hash ≠ r.tx_hash)

/-- storeSwapEvents: upsert each event in order. -/
def storeSwapEvents (events : List SwapEvent) (tbl : List SwapRow) :
    List SwapRow :=
  events.foldl (fun t e => upsertSwapRow (swapRowOfEvent e) t) tbl

/-- A row of the price_history table. -/
structure SnapRow where
  pool_address : Addr
  price_a_per_b : ℚ
  price_b_per_a : ℚ
  reserve_a : ℕ
  reserve_b : ℕ
  timestamp : ℤ
deriving DecidableEq

/-- Timestamp of the most recent snapshot for a pool: the
order-by-timestamp-descending limit-1 query of storePriceHistory. -/
def lastSnapshotTime (pool : Addr) (hist : List SnapRow) : Option ℤ :=
  ((hist.filter (fun r => r.pool_address = pool)).map
    (fun r => r.timestamp)).maximum

/-- The write-throttle guard of storePriceHistory: insert only when there
is no previous snapshot for the pool, or the most recent one is more than
60000 milliseconds older than now. -/
def throttleAllows (pool : Addr) (now : ℤ) (hist : List SnapRow) : Bool :=
  match lastSnapshotTime pool hist with
  | none => true
  | some t => decide (60000 < now - t)

/-- storePriceHistory for one pool: normalize the two reserves, form the
two price ratios, and insert a snapshot stamped now unless throttled. -/
def storePriceHistory (pool : Addr) (decA decB : ℕ)
    (reserveA reserveB : ℕ) (now : ℤ) (hist : List SnapRow) :
    List SnapRow :=
  let raF := normUnits reserveA decA
  let rbF := normUnits reserveB decB
  if throttleAllows pool now hist then
    { pool_address := pool, price_a_per_b := rbF / raF,
      price_b_per_a := raF / rbF, reserve_a := reserveA,
      reserve_b := reserveB, timestamp := now } :: hist
  else hist

/-- The arguments of one storePriceHistory call. -/
structure SnapOp where
  pool : Addr
  decA : ℕ
  decB : ℕ
  reserveA : ℕ
  reserveB : ℕ
  now : ℤ
deriving DecidableEq

/-- A run of storePriceHistory calls applied in order. -/
def applySnapOps (hist : List SnapRow) : List SnapOp → List SnapRow
  | [] => hist
  | op :: rest =>
    applySnapOps
      (storePriceHistory op.pool op.decA op.decB op.reserveA op.reserveB
        op.now hist) rest

/-- Two snapshot rows for the same pool are at least 60000 milliseconds
apart. -/
def snapSpaced (r1 r2 : SnapRow) : Prop :=
  r1.pool_address = r2.pool_address → 60000 ≤ |r1.timestamp - r2.timestamp|

/-- A row of the pools table. -/
structure PoolRow where
  pool_address : Addr
  token_a : Addr
  token_b : Addr
  reserve_a : ℕ
  reserve_b : ℕ
  reserve_a_decimals : ℕ
  reserve_b_decimals : ℕ
  total_liquidity : ℚ
deriving DecidableEq

/-- supabase upsert on pools with onConflict pool_address. -/
def upsertPoolRow (row : PoolRow) (tbl : List PoolRow) : List PoolRow :=
  row :: tbl.filter (fun q => q.pool_address ≠ row.pool_address)

/-- supabase delete on pools by pool_address. -/
def deletePoolRow (pool : Addr) (tbl : List PoolRow) : List PoolRow :=
  tbl.filter (fun q => q.pool_address ≠ pool)

/-- The liquidity threshold 0.000001 of storePoolData. -/
def dustThreshold : ℚ := 1 / 1000000

/-- The persistent store: the three supabase tables. -/
structure Store where
  pools : List PoolRow
  swap_events : List SwapRow
  price_history : List SnapRow
deriving DecidableEq

/-- The pools row assembled by storePoolData for one pool: reserves are
the actual ERC20 balances of the pool address (balanceOf reads, not the
stored reserve counters), total liquidity is the price-weighted sum of
the normalized reserves, with prices from getTokenPriceInUSD over the
full pool list. -/
def freshPoolRow (c : Chain) (pools : List Addr) (p : Addr) : PoolRow :=
  let tA := c.tokenA p
  let tB := c.tokenB p
  let rA := c.balanceOf tA p
  let rB := c.balanceOf tB p
  let raF := normUnits rA (c.decimals tA)
  let rbF := normUnits rB (c.decimals tB)
  let priceA := getTokenPriceInUSD c tA pools
  let priceB := getTokenPriceInUSD c tB pools
  { pool_address := p, token_a := tA, token_b := tB,
    reserve_a := rA, reserve_b := rB,
    reserve_a_decimals := c.decimals tA,
    reserve_b_decimals := c.decimals tB,
    total_liquidity := raF * priceA + rbF * priceB }

/-- The body of the storePoolData loop for one pool: when both normalized
balanceOf reserves strictly exceed the dust threshold, upsert the fresh
row and take a throttled price snapshot; otherwise delete the pool row
(no liquidity). -/
def storePoolDataStep (c : Chain) (pools : List Addr) (now : ℤ)
    (st : Store) (p : Addr) : Store :=
  let tA := c.tokenA p
  let tB := c.tokenB p
  let rA := c.balanceOf tA p
  let rB := c.balanceOf tB p
  let raF := normUnits rA (c.decimals tA)
  let rbF := normUnits rB (c.decimals tB)
  if dustThreshold < raF ∧ dustThreshold < rbF then
    { st with
      pools := upsertPoolRow (freshPoolRow c pools p) st.pools,
      price_history :=
        storePriceHistory p (c.decimals tA) (c.decimals tB) rA rB now
          st.price_history }
  else
    { st with pools := deletePoolRow p st.pools }

/-- storePoolData: process every known pool in order. -/
def storePoolData (c : Chain) (pools : List Addr) (now : ℤ) (st : Store) :
    Store :=
  pools.foldl (storePoolDataStep c pools now) st

/-- Row lookup in the pools table by address (the unique key). -/
def lookupPool (p : Addr) (tbl : List PoolRow) : Option PoolRow :=
  tbl.find? (fun q => q.pool_address = p)

/-- The pools-table row that one storePoolData pass leaves for a pool:
the freshly computed row when both normalized balanceOf reserves strictly
exceed the dust threshold, nothing (row deleted) otherwise. -/
def expectedPoolRow (c : Chain) (pools : List Addr) (p : Addr) :
    Option PoolRow :=
  if dustThreshold < normUnits (c.balanceOf (c.tokenA p) p)
        (c.decimals (c.tokenA p)) ∧
      dustThreshold < normUnits (c.balanceOf (c.tokenB p) p)
        (c.decimals (c.tokenB p)) then
    some (freshPoolRow c pools p)
  else none

/-- The per-cycle inputs of the index() function. The two reads whose
exceptions escape to the run() catch are Option-valued (none = the RPC
call threw): the current block number lookup and the PoolCreated log
query. Per-pool swap-log queries are also fallible, but their exceptions
are caught inside processSwapEvents. factoryPools is the pool list
produced by fetchAllPools. -/
structure World where
  chain : Chain
  factoryPools : List Addr
  blockNumber : Option ℕ
  swapLogs : Addr → Option (List SwapLog)
  blockTs : ℕ → ℤ
  poolCreatedLogs : Option (List Addr)
  now : ℤ

/-- The scheduler-owned in-memory state across cycles: the block cursor
(null before the first cycle) and the persistent store it writes. -/
structure IndexerState where
  lastProcessedBlock : Option ℕ
  store : Store
deriving DecidableEq

/-- One cycle of index() under the run() catch-all: a throwing top-level
read (block number, or the PoolCreated query on a nonempty range) aborts
the cycle with the state unchanged; per-pool swap-log failures are
swallowed as empty event lists; the cursor is set to the head block as
soon as the range is known to be nonempty, before any store write; swap
events are upserted; storePoolData always runs over the known pools plus
any newly created ones. -/
def index (w : World) (s : IndexerState) : IndexerState :=
  match w.blockNumber with
  | none => s
  | some currentBlock =>
    let last := s.lastProcessedBlock.getD (currentBlock - 10000)
    let fromBlock := last + 1
    let toBlock := currentBlock
    let allSwapEvents :=
      if fromBlock ≤ toBlock then
        w.factoryPools.flatMap
          (fun p => processSwapEvents w.chain w.blockTs (w.swapLogs p) p)
      else []
    if fromBlock ≤ toBlock ∧ w.poolCreatedLogs = none then s
    else
      let pools2 :=
        w.factoryPools ++
          (if fromBlock ≤ toBlock then
            (w.poolCreatedLogs.getD []).filter
              (fun p => p ∉ w.factoryPools)
          else [])
      let cursor2 :=
        if fromBlock ≤ toBlock then some toBlock else s.lastProcessedBlock
      let tbl2 :=
        if allSwapEvents = [] then s.store.swap_events
        else storeSwapEvents allSwapEvents s.store.swap_events
      let st2 :=
        storePoolData w.chain pools2 w.now
          { s.store with swap_events := tbl2 }
      { lastProcessedBlock := cursor2, store := st2 }

end Indexer

namespace UI

/-- A pool as held by the pools component. -/
structure PoolInfo where
  poolAddress : Addr
  tokenA : Addr
  tokenB : Addr
deriving DecidableEq

/-- A normalized pool reserve as the frontend reads it: the actual ERC20
balance of the pool address, decimals from the TOKENS table with default
18 (both modelled by the Chain fields). -/
def normBalance (c : Chain) (token pool : Addr) : ℚ :=
  normUnits (c.balanceOf token pool) (c.decimals token)

/-- The direct USDC-pair scan of the frontend getTokenPriceInUSD: on the
first pool containing USDC whose other token is the target, return
immediately with normalized USDC reserve over normalized token reserve
(the price-or-0 coercion of the JS maps only falsy values to 0, and a
zero denominator already yields 0 in rationals). -/
def findDirect (c : Chain) (token : Addr) : List PoolInfo → Option ℚ
  | [] => none
  | p :: rest =>
    if p.tokenA = USDC_ADDRESS ∨ p.tokenB = USDC_ADDRESS then
      let other := if p.tokenA = USDC_ADDRESS then p.tokenB else p.tokenA
      if other = token then
        let raF := normBalance c p.tokenA p.poolAddress
        let rbF := normBalance c p.tokenB p.poolAddress
        some (if p.tokenA = USDC_ADDRESS then raF / rbF else rbF / raF)
      else findDirect c token rest
    else findDirect c token rest

/-- The indirect-route scan of the frontend getTokenPriceInUSD: for each
pool containing the token but not USDC, resolve the other (intermediate)
token through the callback recPrice; a positive intermediate price
returns the reserve ratio times that price, a nonpositive one moves on to
the next pool; exhausting the list returns 0. A callback answer of none
(recursion that does not complete) propagates as none. -/
def findIndirect (c : Chain) (recPrice : Addr → Option ℚ) (token : Addr) :
    List PoolInfo → Option ℚ
  | [] => some 0
  | p :: rest =>
    if (p.tokenA = token ∨ p.tokenB = token) ∧
        p.tokenA ≠ USDC_ADDRESS ∧ p.tokenB ≠ USDC_ADDRESS then
      let intermediate := if p.tokenA = token then p.tokenB else p.tokenA
      match recPrice intermediate with
      | none => none
      | some ip =>
        if 0 < ip then
          let raF := normBalance c p.tokenA p.poolAddress
          let rbF := normBalance c p.tokenB p.poolAddress
          let ratio := if p.tokenA = token then rbF / raF else raF / rbF
          some (ratio * ip)
        else findIndirect c recPrice token rest
    else findIndirect c recPrice token rest

/-- Fuel-indexed embedding of the frontend getTokenPriceInUSD. The JS
function is unguarded general recursion with no visited-token set; fuel
makes it total in Lean, with none meaning the call did not complete
within the given recursion depth. -/
def getTokenPriceInUSD (c : Chain) : ℕ → Addr → List PoolInfo → Option ℚ
  | 0, _, _ => none
  | n + 1, token, pools =>
    if token = USDC_ADDRESS then some 1
    else
      match findDirect c token pools with
      | some price => some price
      | none =>
        findIndirect c (fun t => getTokenPriceInUSD c n t pools) token pools

/-- The call diverges: no recursion depth lets it complete. -/
def priceDiverges (c : Chain) (token : Addr) (pools : List PoolInfo) :
    Prop :=
  ∀ n, getTokenPriceInUSD c n token pools = none

/-- A swap_events row as fetched back by fetchMetricsFast. -/
structure EventRow where
  token_in : Addr
  token_out : Addr
  amount_in : ℕ
  amount_out : ℕ
  timestamp : ℤ
deriving DecidableEq

/-- USD volume attributed to one swap event by fetchMetricsFast: the
USDC-leg amount normalized at 6 decimals when USDC is the in or the out
token, and 0 for a token-to-token swap. -/
def volumeUSD (e : EventRow) : ℚ :=
  if e.token_in = USDC_ADDRESS then (e.amount_in : ℚ) / 10 ^ 6
  else if e.token_out = USDC_ADDRESS then (e.amount_out : ℚ) / 10 ^ 6
  else 0

/-- UTC calendar-day bucket of a millisecond timestamp (the date part of
toISOString). -/
def dateKey (ts : ℤ) : ℤ := Int.fdiv ts 86400000

/-- The aggregation state of fetchMetricsFast: running totals and the
per-day (volume, fees) map. -/
structure Metrics where
  totalVolume : ℚ
  totalFees : ℚ
  daily : ℤ → ℚ × ℚ

/-- The body of the fetchMetricsFast loop for one event: events with a
positive USD volume add that volume, a 0.3 percent fee, and a bucket
contribution on their calendar day; others are skipped. -/
def metricsStep (m : Metrics) (e : EventRow) : Metrics :=
  let v := volumeUSD e
  if 0 < v then
    let f := v * (3 / 1000)
    { totalVolume := m.totalVolume + v,
      totalFees := m.totalFees + f,
      daily := fun d =>
        if d = dateKey e.timestamp then ((m.daily d).1 + v, (m.daily d).2 + f)
        else m.daily d }
  else m

/-- Zero totals and an empty daily map. -/
def emptyMetrics : Metrics :=
  { totalVolume := 0, totalFees := 0, daily := fun _ => (0, 0) }

/-- The rolling 30-day window filter of the swap_events query
(timestamp ≥ now minus 30 days, in milliseconds). -/
def inWindow (now : ℤ) (e : EventRow) : Bool :=
  decide (now - 2592000000 ≤ e.timestamp)

/-- fetchMetricsFast: fold the metrics step over the persisted swap
events of the last 30 days. -/
def fetchMetricsFast (now : ℤ) (events : List EventRow) : Metrics :=
  (events.filter (inWindow now)).foldl metricsStep emptyMetrics

end UI

/-! Concrete inputs used by witnesses and counterexamples. -/

open Indexer

/-- A sample log swapping tokenA in. -/
def sampleLogAIn : SwapLog :=
  { amountAIn := 5, amountBIn := 0, amountAOut := 0, amountBOut := 9,
    txHash := 11, blockNumber := 100 }

/-- A sample log swapping tokenB in. -/
def sampleLogBIn : SwapLog :=
  { amountAIn := 0, amountBIn := 7, amountAOut := 4, amountBOut := 0,
    txHash := 12, blockNumber := 100 }

/-- A malformed sample log with both in-amounts zero. -/
def sampleLogZero : SwapLog :=
  { amountAIn := 0, amountBIn := 0, amountAOut := 4, amountBOut := 9,
    txHash := 13, blockNumber := 100 }

/-- A chain holding the cyclic pool graph 1/2, 2/3, 3/1 with no USDC leg:
every pool balance is 1 unit at 0 decimals. -/
def cycleChain : Chain :=
  { tokenA := fun _ => 0, tokenB := fun _ => 0,
    reserveA := fun _ => 0, reserveB := fun _ => 0,
    balanceOf := fun _ _ => 1, decimals := fun _ => 0 }

/-- The cyclic pool graph 1/2, 2/3, 3/1 as the frontend sees it. -/
def cyclePools : List UI.PoolInfo :=
  [{ poolAddress := 101, tokenA := 1, tokenB := 2 },
   { poolAddress := 102, tokenA := 2, tokenB := 3 },
   { poolAddress := 103, tokenA := 3, tokenB := 1 }]

/-- A chain with a two-hop route 5 to 4 to USDC and no direct 5/USDC
pool: pool 201 pairs token 5 with token 4 (balances 1 and 2 at 0
decimals), pool 202 pairs token 4 with USDC (balances 1 at 0 decimals
and 3000000 at 6 decimals, so 3 USDC per token 4). Stored reserve
counters are positive copies of the balances. -/
def twoHopChain : Chain :=
  { tokenA := fun p => if p = 201 then 5 else 4,
    tokenB := fun p => if p = 201 then 4 else USDC_ADDRESS,
    reserveA := fun p => if p = 201 then 1 else 1,
    reserveB := fun p => if p = 201 then 2 else 3000000,
    balanceOf := fun t h =>
      if t = 5 ∧ h = 201 then 1
      else if t = 4 ∧ h = 201 then 2
      else if t = 4 ∧ h = 202 then 1
      else if t = USDC_ADDRESS ∧ h = 202 then 3000000
      else 0,
    decimals := fun t => if t = USDC_ADDRESS then 6 else 0 }

/-- The two-hop pool list as the indexer sees it. -/
def twoHopPoolAddrs : List Addr := [201, 202]

/-- The two-hop pool list as the frontend sees it. -/
def twoHopPools : List UI.PoolInfo :=
  [{ poolAddress := 201, tokenA := 5, tokenB := 4 },
   { poolAddress := 202, tokenA := 4, tokenB := USDC_ADDRESS }]

/-- Actual pool balances shared by the two drift chains: pool 400 holds
3000000 raw USDC (3 USDC at 6 decimals) and 1 unit of token 9 (0
decimals). -/
def driftBalances : Addr → Addr → ℕ := fun t h =>
  if t = USDC_ADDRESS ∧ h = 400 then 3000000
  else if t = 9 ∧ h = 400 then 1
  else 0

/-- Pool 400 pairs USDC with token 9; its stored reserve counters have
drifted: they record 2000000 raw USDC against an actual balance of
3000000. -/
def driftedChain : Chain :=
  { tokenA := fun _ => USDC_ADDRESS, tokenB := fun _ => 9,
    reserveA := fun _ => 2000000, reserveB := fun _ => 1,
    balanceOf := driftBalances,
    decimals := fun t => if t = USDC_ADDRESS then 6 else 0 }

/-- The same pool with the same actual balances, but with stored reserve
counters that agree with the balances. -/
def syncedChain : Chain :=
  { tokenA := fun _ => USDC_ADDRESS, tokenB := fun _ => 9,
    reserveA := fun _ => 3000000, reserveB := fun _ => 1,
    balanceOf := driftBalances,
    decimals := fun t => if t = USDC_ADDRESS then 6 else 0 }

/-- A chain where pool 300 (tokens 1 and 2, 0 decimals) holds zero of
token 1 and 5 units of token 2: one reserve is below the dust threshold,
the other is far above it. -/
def oneSidedDustChain : Chain :=
  { tokenA := fun _ => 1, tokenB := fun _ => 2,
    reserveA := fun _ => 0, reserveB := fun _ => 0,
    balanceOf := fun t h => if t = 2 ∧ h = 300 then 5 else 0,
    decimals := fun _ => 0 }

/-- A stale pools row for pool 300, present before the cycle. -/
def stalePoolRow : PoolRow :=
  { pool_address := 300, token_a := 1, token_b := 2,
    reserve_a := 1, reserve_b := 1,
    reserve_a_decimals := 0, reserve_b_decimals := 0,
    total_liquidity := 0 }

/-- A world whose swap-log query for pool 500 throws while the block
number lookup and the PoolCreated query succeed. -/
def failingLogWorld : World :=
  { chain :=
      { tokenA := fun _ => 1, tokenB := fun _ => 2,
        reserveA := fun _ => 0, reserveB := fun _ => 0,
        balanceOf := fun _ _ => 0, decimals := fun _ => 0 },
    factoryPools := [500],
    blockNumber := some 110,
    swapLogs := fun _ => none,
    blockTs := fun _ => 0,
    poolCreatedLogs := some [],
    now := 0 }

/-- The scheduler state before the failing cycle: cursor at block 100,
empty store. -/
def preFailState : IndexerState :=
  { lastProcessedBlock := some 100,
    store := { pools := [], swap_events := [], price_history := [] } }

/-- A chain where pool 600 (tokens 1 and 2, 0 decimals) holds 2 and 5
units: both normalized reserves are above the dust threshold. -/
def liquidChain : Chain :=
  { tokenA := fun _ => 1, tokenB := fun _ => 2,
    reserveA := fun _ => 0, reserveB := fun _ => 0,
    balanceOf := fun t h =>
      if t = 1 ∧ h = 600 then 2 else if t = 2 ∧ h = 600 then 5 else 0,
    decimals := fun _ => 0 }

/-- The empty store. -/
def emptyStore : Store :=
  { pools := [], swap_events := [], price_history := [] }

/-- The snapshot row that processing pool 600 of liquidChain over the
empty store writes. -/
def liquidSnapRow : SnapRow :=
  { pool_address := 600, price_a_per_b := 5 / 2, price_b_per_a := 2 / 5,
    reserve_a := 2, reserve_b := 5, timestamp := 0 }

/-! Theorems. -/

/-- Any same-pool row in the history is at least as old as the latest
snapshot, so the throttle guard keeps every such row more than 60000
milliseconds away from an allowed insert time. -/
theorem throttleAllows_gap {pool : Addr} {now : ℤ} {hist : List SnapRow}
    (hall : throttleAllows pool now hist = true) {r : SnapRow}
    (hr : r ∈ hist) (hp : r.pool_address = pool) :
    60000 < now - r.timestamp := by
  have hmem : r.timestamp ∈
      (hist.filter (fun q => q.pool_address = pool)).map
        (fun q => q.timestamp) :=
    List.mem_map_of_mem _ (List.mem_filter.mpr ⟨hr, by simp [hp]⟩)
  unfold throttleAllows at hall
  cases hmax : lastSnapshotTime pool hist with
  | none =>
    exfalso
    have hnil : (hist.filter (fun q => q.pool_address = pool)).map
        (fun q => q.timestamp) = [] := List.maximum_eq_none.mp hmax
    rw [hnil] at hmem
    exact List.not_mem_nil _ hmem
  | some t =>
    rw [hmax] at hall
    have hle : r.timestamp ≤ t := List.le_maximum_of_mem hmem hmax
    have hlt : 60000 < now - t := of_decide_eq_true hall
    omega

/-- One storePriceHistory call preserves the snapshot spacing
invariant. -/
theorem storePriceHistory_spaced (pool : Addr) (decA decB ra rb : ℕ)
    (now : ℤ) (hist : List SnapRow)
    (h : List.Pairwise snapSpaced hist) :
    List.Pairwise snapSpaced
      (storePriceHistory pool decA decB ra rb now hist) := by
  unfold storePriceHistory
  by_cases hg : throttleAllows pool now hist = true
  · simp only [hg, if_true]
    refine List.Pairwise.cons ?_ h
    intro r hr
    unfold snapSpaced
    intro hp
    have hp2 : r.pool_address = pool := by simpa using hp.symm
    have hgap := throttleAllows_gap hg hr hp2
    show 60000 ≤ |now - r.timestamp|
    rw [abs_of_pos (by omega)]
    omega
  · simp only [hg, if_false]
    exact h

/-- Any run of storePriceHistory calls preserves the snapshot spacing
invariant. -/
theorem applySnapOps_spaced (ops : List SnapOp) :
    ∀ hist, List.Pairwise snapSpaced hist →
      List.Pairwise snapSpaced (applySnapOps hist ops) := by
  induction ops with
  | nil => intro hist h; exact h
  | cons op rest ih =>
    intro hist h
    exact ih _ (storePriceHistory_spaced _ _ _ _ _ _ _ h)

/-- Claim C7: a price snapshot is inserted only when no snapshot for the
pool lies within the last 60 seconds, so after any sequence of
storePriceHistory calls starting from an empty table, no two rows for
the same pool are less than 60 seconds (in fact 60000 milliseconds)
apart. -/
theorem price_history_throttled (ops : List SnapOp) :
    List.Pairwise snapSpaced (applySnapOps [] ops) :=
  applySnapOps_spaced ops [] List.Pairwise.nil

/-- Claim C5: writing a swap event to the store is idempotent on its
transaction hash: storing the same event twice leaves the swap_events
table identical to the table after a single insert, and the table then
contains exactly one row carrying that tx hash. -/
theorem storeSwapEvents_idempotent (e : SwapEvent) (tbl : List SwapRow) :
    storeSwapEvents [e] (storeSwapEvents [e] tbl) = storeSwapEvents [e] tbl ∧
    ((storeSwapEvents [e] (storeSwapEvents [e] tbl)).filter
        (fun q => q.tx_hash = e.txHash)).length = 1 := by
  constructor
  · show upsertSwapRow (swapRowOfEvent e) (upsertSwapRow (swapRowOfEvent e) tbl)
      = upsertSwapRow (swapRowOfEvent e) tbl
    unfold upsertSwapRow
    simp [List.filter_cons, List.filter_filter]
  · show ((upsertSwapRow (swapRowOfEvent e)
        (upsertSwapRow (swapRowOfEvent e) tbl)).filter
          (fun q => q.tx_hash = e.txHash)).length = 1
    have he : (swapRowOfEvent e).tx_hash = e.txHash := rfl
    unfold upsertSwapRow
    simp [List.filter_filter, he]

/-- Filtering out rows of a different address does not change a lookup. -/
theorem find?_filter_ne (p q : Addr) (hne : p ≠ q) (tbl : List PoolRow) :
    (tbl.filter (fun r => r.pool_address ≠ q)).find?
        (fun r => r.pool_address = p) =
      tbl.find? (fun r => r.pool_address = p) := by
  rw [List.find?_filter]
  congr 1
  funext a
  by_cases h : a.pool_address = p
  · have hq : ¬ a.pool_address = q := fun hh => hne (h.symm.trans hh)
    simp [h, hq, hne]
  · simp [h]

/-- Upserting a row makes it the lookup result for its address. -/
theorem lookupPool_upsert_self (row : PoolRow) (tbl : List PoolRow) :
    lookupPool row.pool_address (upsertPoolRow row tbl) = some row := by
  unfold lookupPool upsertPoolRow
  exact List.find?_cons_of_pos _ (by simp)

/-- Upserting a row of a different address does not change a lookup. -/
theorem lookupPool_upsert_other (row : PoolRow) (tbl : List PoolRow)
    (p : Addr) (hne : p ≠ row.pool_address) :
    lookupPool p (upsertPoolRow row tbl) = lookupPool p tbl := by
  unfold lookupPool upsertPoolRow
  rw [List.find?_cons_of_neg _ (by simpa using Ne.symm hne)]
  exact find?_filter_ne p row.pool_address hne tbl

/-- After deleting an address, looking it up gives nothing. -/
theorem lookupPool_delete_self (p : Addr) (tbl : List PoolRow) :
    lookupPool p (deletePoolRow p tbl) = none := by
  unfold lookupPool deletePoolRow
  apply List.find?_eq_none.mpr
  intro r hr
  have := (List.mem_filter.mp hr).2
  simp at this
  simp [this]

/-- Processing some other pool does not change the lookup of p. -/
theorem lookupPool_step_other (c : Chain) (pools : List Addr) (now : ℤ)
    (st : Store) (p q : Addr) (hne : p ≠ q) :
    lookupPool p (storePoolDataStep c pools now st q).pools =
      lookupPool p st.pools := by
  simp only [storePoolDataStep]
  by_cases hg :
      dustThreshold < normUnits (c.balanceOf (c.tokenA q) q)
          (c.decimals (c.tokenA q)) ∧
        dustThreshold < normUnits (c.balanceOf (c.tokenB q) q)
          (c.decimals (c.tokenB q))
  · simp only [hg, if_true]
    exact lookupPool_upsert_other (freshPoolRow c pools q) st.pools p hne
  · simp only [hg, if_false]
    exact find?_filter_ne p q hne st.pools

/-- Processing pool p itself leaves exactly the expected row. -/
theorem lookupPool_step_self (c : Chain) (pools : List Addr) (now : ℤ)
    (st : Store) (p : Addr) :
    lookupPool p (storePoolDataStep c pools now st p).pools =
      expectedPoolRow c pools p := by
  simp only [storePoolDataStep, expectedPoolRow]
  by_cases hg :
      dustThreshold < normUnits (c.balanceOf (c.tokenA p) p)
          (c.decimals (c.tokenA p)) ∧
        dustThreshold < normUnits (c.balanceOf (c.tokenB p) p)
          (c.decimals (c.tokenB p))
  · simp only [hg, if_true]
    exact lookupPool_upsert_self (freshPoolRow c pools p) st.pools
  · simp only [hg, if_false]
    exact lookupPool_delete_self p st.pools

/-- The storePoolData fold, characterized per pool address. -/
theorem storePoolData_foldl_lookup (c : Chain) (pools : List Addr)
    (now : ℤ) (p : Addr) :
    ∀ (l : List Addr) (st : Store),
      lookupPool p ((l.foldl (storePoolDataStep c pools now) st).pools) =
        if p ∈ l then expectedPoolRow c pools p else lookupPool p st.pools := by
  intro l
  induction l with
  | nil => intro st; simp
  | cons q rest ih =>
    intro st
    rw [List.foldl_cons, ih]
    by_cases hpq : p = q
    · subst hpq
      by_cases hmem : p ∈ rest
      · simp [hmem]
      · simp [hmem, lookupPool_step_self]
    · by_cases hmem : p ∈ rest
      · simp [hmem, List.mem_cons, hpq]
      · simp [hmem, hpq, List.mem_cons,
          lookupPool_step_other c pools now st p q hpq]

/-- Claim C8 as amended: every known pool is processed each cycle; its
row is created or refreshed (upserted keyed by pool address, with fresh
balanceOf reserves) exactly when both normalized reserves are strictly
above the dust threshold, and the row is deleted exactly when at least
one normalized reserve is at or below the dust threshold — not only when
both are. Rows of addresses outside the processed list are untouched. -/
theorem storePoolData_upsert_or_delete (c : Chain) (pools : List Addr)
    (now : ℤ) (st : Store) (p : Addr) :
    lookupPool p (storePoolData c pools now st).pools =
      if p ∈ pools then expectedPoolRow c pools p
      else lookupPool p st.pools :=
  storePoolData_foldl_lookup c pools now p pools st

/-- Counterexample to claim C8 as stated: pool 300 of oneSidedDustChain
is deleted from the pools table although only one of its reserves is
below the dust threshold (the other normalized reserve is 5). -/
theorem storePoolData_deletes_one_sided :
    (storePoolData oneSidedDustChain [300] 0
        { pools := [stalePoolRow], swap_events := [],
          price_history := [] }).pools = [] ∧
    dustThreshold <
      normUnits
        (oneSidedDustChain.balanceOf (oneSidedDustChain.tokenB 300) 300)
        (oneSidedDustChain.decimals (oneSidedDustChain.tokenB 300)) := by
  constructor
  · norm_num [storePoolData, storePoolDataStep, oneSidedDustChain,
      normUnits, dustThreshold, deletePoolRow, stalePoolRow,
      List.filter_cons]
  · norm_num [oneSidedDustChain, normUnits, dustThreshold]

/-- The dust threshold is positive. -/
theorem dustThreshold_pos : 0 < dustThreshold := by
  norm_num [dustThreshold]

/-- One storePoolData step preserves positivity of all stored snapshot
prices: a new snapshot is taken only under the dust guard, which makes
both normalized reserves, and hence both price ratios, positive. -/
theorem step_snapshot_prices_pos (c : Chain) (pools : List Addr) (now : ℤ)
    (st : Store) (p : Addr)
    (h : ∀ r ∈ st.price_history,
      0 < r.price_a_per_b ∧ 0 < r.price_b_per_a) :
    ∀ r ∈ (storePoolDataStep c pools now st p).price_history,
      0 < r.price_a_per_b ∧ 0 < r.price_b_per_a := by
  simp only [storePoolDataStep]
  by_cases hg :
      dustThreshold < normUnits (c.balanceOf (c.tokenA p) p)
          (c.decimals (c.tokenA p)) ∧
        dustThreshold < normUnits (c.balanceOf (c.tokenB p) p)
          (c.decimals (c.tokenB p))
  · simp only [hg, if_true]
    intro r hr
    have hra : 0 < normUnits (c.balanceOf (c.tokenA p) p)
        (c.decimals (c.tokenA p)) := lt_trans dustThreshold_pos hg.1
    have hrb : 0 < normUnits (c.balanceOf (c.tokenB p) p)
        (c.decimals (c.tokenB p)) := lt_trans dustThreshold_pos hg.2
    simp only [storePriceHistory] at hr
    by_cases ht :
        throttleAllows p now st.price_history = true
    · rw [if_pos ht] at hr
      rcases List.mem_cons.mp hr with hnew | hold
      · rw [hnew]
        exact ⟨div_pos hrb hra, div_pos hra hrb⟩
      · exact h r hold
    · rw [if_neg ht] at hr
      exact h r hr
  · simp only [hg, if_false]
    exact h

/-- The storePoolData fold preserves positivity of all snapshot
prices. -/
theorem storePoolData_foldl_prices_pos (c : Chain) (pools : List Addr)
    (now : ℤ) :
    ∀ (l : List Addr) (st : Store),
      (∀ r ∈ st.price_history,
        0 < r.price_a_per_b ∧ 0 < r.price_b_per_a) →
      ∀ r ∈ (l.foldl (storePoolDataStep c pools now) st).price_history,
        0 < r.price_a_per_b ∧ 0 < r.price_b_per_a := by
  intro l
  induction l with
  | nil => intro st h; exact h
  | cons q rest ih =>
    intro st h
    exact ih _ (step_snapshot_prices_pos c pools now st q h)

/-- Claim C10: price snapshots are computed and written only for pools
whose normalized balanceOf reserves are both strictly above the dust
threshold, so the stored ratios price_a_per_b and price_b_per_a never
involve a zero denominator: starting from a table whose rows all carry
positive ratios, every row after a storePoolData pass still carries
strictly positive (hence finite, well-defined) ratios. -/
theorem storePoolData_snapshot_prices_pos (c : Chain) (pools : List Addr)
    (now : ℤ) (st : Store)
    (h : ∀ r ∈ st.price_history,
      0 < r.price_a_per_b ∧ 0 < r.price_b_per_a) :
    ∀ r ∈ (storePoolData c pools now st).price_history,
      0 < r.price_a_per_b ∧ 0 < r.price_b_per_a :=
  storePoolData_foldl_prices_pos c pools now pools st h

/-- Witness for claim C10: processing pool 600 of liquidChain over the
empty store writes the snapshot row with ratios 5/2 and 2/5, both
positive. -/
theorem storePoolData_snapshot_prices_pos_witness :
    0 < liquidSnapRow.price_a_per_b ∧ 0 < liquidSnapRow.price_b_per_a :=
  storePoolData_snapshot_prices_pos liquidChain [600] 0 emptyStore
    (by intro r hr; exact absurd hr (List.not_mem_nil r))
    liquidSnapRow
    (by norm_num [storePoolData, storePoolDataStep, liquidChain,
      storePriceHistory, throttleAllows, lastSnapshotTime, normUnits,
      dustThreshold, emptyStore, liquidSnapRow, List.maximum])

/-- Claim C6: direction of an extracted swap record. For every swap log:
a nonzero tokenA-in amount yields a record with tokenIn = pool.tokenA and
tokenOut = pool.tokenB carrying (amountAIn, amountBOut); a zero tokenA-in
amount with a nonzero tokenB-in amount yields tokenIn = pool.tokenB and
tokenOut = pool.tokenA carrying (amountBIn, amountAOut); a log with both
in-amounts zero produces no record. -/
theorem classifySwap_direction (poolAddress tokenA tokenB : Addr)
    (blockTs : ℕ → ℤ) (l : SwapLog) :
    (0 < l.amountAIn →
      ∃ e, classifySwap poolAddress tokenA tokenB blockTs l = some e ∧
        e.tokenIn = tokenA ∧ e.tokenOut = tokenB ∧
        e.amountIn = l.amountAIn ∧ e.amountOut = l.amountBOut) ∧
    (l.amountAIn = 0 → 0 < l.amountBIn →
      ∃ e, classifySwap poolAddress tokenA tokenB blockTs l = some e ∧
        e.tokenIn = tokenB ∧ e.tokenOut = tokenA ∧
        e.amountIn = l.amountBIn ∧ e.amountOut = l.amountAOut) ∧
    (l.amountAIn = 0 → l.amountBIn = 0 →
      classifySwap poolAddress tokenA tokenB blockTs l = none) := by
  refine ⟨?_, ?_, ?_⟩
  · intro h
    have hc : classifySwap poolAddress tokenA tokenB blockTs l =
        some { poolAddress := poolAddress, tokenIn := tokenA,
               tokenOut := tokenB, amountIn := l.amountAIn,
               amountOut := l.amountBOut,
               timestamp := blockTs l.blockNumber, txHash := l.txHash,
               blockNumber := l.blockNumber } := by
      simp [classifySwap, h]
    exact ⟨_, hc, rfl, rfl, rfl, rfl⟩
  · intro hA hB
    have hc : classifySwap poolAddress tokenA tokenB blockTs l =
        some { poolAddress := poolAddress, tokenIn := tokenB,
               tokenOut := tokenA, amountIn := l.amountBIn,
               amountOut := l.amountAOut,
               timestamp := blockTs l.blockNumber, txHash := l.txHash,
               blockNumber := l.blockNumber } := by
      simp [classifySwap, hA, hB]
    exact ⟨_, hc, rfl, rfl, rfl, rfl⟩
  · intro hA hB
    simp [classifySwap, hA, hB]

/-- On the cyclic pool graph 1/2, 2/3, 3/1 with no stable leg, the
frontend resolver never completes for any of the three cycle tokens, at
any recursion depth: each token falls through the direct scan and the
first indirect pool hands the recursion to the next token of the
cycle. -/
theorem cycle_price_none (n : ℕ) :
    UI.getTokenPriceInUSD cycleChain n 1 cyclePools = none ∧
    UI.getTokenPriceInUSD cycleChain n 2 cyclePools = none ∧
    UI.getTokenPriceInUSD cycleChain n 3 cyclePools = none := by
  induction n with
  | zero => exact ⟨rfl, rfl, rfl⟩
  | succ n ih =>
    obtain ⟨h1, h2, h3⟩ := ih
    simp only [cyclePools] at h1 h2 h3
    refine ⟨?_, ?_, ?_⟩
    · simp [UI.getTokenPriceInUSD, UI.findDirect, UI.findIndirect,
        cyclePools, USDC_ADDRESS, h1, h2, h3]
    · simp [UI.getTokenPriceInUSD, UI.findDirect, UI.findIndirect,
        cyclePools, USDC_ADDRESS, h1, h2, h3]
    · simp [UI.getTokenPriceInUSD, UI.findDirect, UI.findIndirect,
        cyclePools, USDC_ADDRESS, h1, h2, h3]

/-- Counterexample to claim C4: on the cyclic pool graph 1/2, 2/3, 3/1
with no stable-asset leg, resolving token 1 by the frontend procedure
never returns at any allowed recursion depth: there is no visited-token
set, and the recursion re-enters the cycle forever. -/
theorem uiPrice_cycle_diverges :
    UI.priceDiverges cycleChain 1 cyclePools :=
  fun n => (cycle_price_none n).1

/-- Claim C4 as amended: USD price resolution does not terminate on
every input. The frontend recursive resolver threads no visited-token
set: on the cyclic pool graph 1/2, 2/3, 3/1 with no stable leg it
diverges for every token of the cycle (tokens 2 and 3 here, token 1 in
the counterexample), while the stable asset itself still resolves to 1
at once. The indexer resolver is a single non-recursive scan and is
total by construction. -/
theorem uiPrice_no_visited_set :
    UI.priceDiverges cycleChain 2 cyclePools ∧
    UI.priceDiverges cycleChain 3 cyclePools ∧
    ∀ n, UI.getTokenPriceInUSD cycleChain (n + 1) USDC_ADDRESS cyclePools
      = some 1 := by
  refine ⟨fun n => (cycle_price_none n).2.1,
    fun n => (cycle_price_none n).2.2, ?_⟩
  intro n
  simp [UI.getTokenPriceInUSD]

/-- The direct USDC-pair scan of the indexer returns 0 when no pool of
the list pairs the token with USDC. -/
theorem findUSDCPairPrice_eq_zero (c : Chain) (token : Addr) :
    ∀ pools : List Addr,
      (∀ p ∈ pools,
        ¬(c.tokenA p = USDC_ADDRESS ∧ c.tokenB p = token) ∧
        ¬(c.tokenB p = USDC_ADDRESS ∧ c.tokenA p = token)) →
      findUSDCPairPrice c token pools = 0 := by
  intro pools
  induction pools with
  | nil => intro _; rfl
  | cons p rest ih =>
    intro h
    have hp := h p (List.mem_cons_self p rest)
    have hrest := fun q hq => h q (List.mem_cons_of_mem p hq)
    simp only [findUSDCPairPrice]
    rw [if_neg hp.1, if_neg hp.2]
    exact ih hrest

/-- Claim C2 as amended: the indexer USD price resolution performs no
multi-hop search: every non-stable token with no pool pairing it
directly with USDC resolves to 0, even when a route through a non-stable
intermediate token exists; only the frontend resolver implements the
recursive multi-hop search of the claim. -/
theorem indexer_price_zero_without_direct_pair (c : Chain) (token : Addr)
    (pools : List Addr) (htok : token ≠ USDC_ADDRESS)
    (hnone : ∀ p ∈ pools,
      ¬(c.tokenA p = USDC_ADDRESS ∧ c.tokenB p = token) ∧
      ¬(c.tokenB p = USDC_ADDRESS ∧ c.tokenA p = token)) :
    Indexer.getTokenPriceInUSD c token pools = 0 := by
  unfold Indexer.getTokenPriceInUSD
  rw [if_neg htok]
  exact findUSDCPairPrice_eq_zero c token pools hnone

/-- Witness for claim C2 at the two-hop configuration: token 5 has no
direct USDC pool among pools 201 and 202, so the indexer resolves it to
0. -/
theorem indexer_price_zero_without_direct_pair_witness :
    Indexer.getTokenPriceInUSD twoHopChain 5 twoHopPoolAddrs = 0 :=
  indexer_price_zero_without_direct_pair twoHopChain 5 twoHopPoolAddrs
    (by decide) (by decide)

/-- With one unfolding of fuel, the frontend prices token 4 of the
two-hop configuration at 3 USD through its direct USDC pool 202. -/
theorem twoHop_price4 (n : ℕ) :
    UI.getTokenPriceInUSD twoHopChain (n + 1) 4 twoHopPools = some 3 := by
  norm_num [UI.getTokenPriceInUSD, UI.findDirect, UI.normBalance,
    twoHopPools, twoHopChain, normUnits, USDC_ADDRESS]

/-- With two unfoldings of fuel, the frontend prices token 5 of the
two-hop configuration at 6 USD: ratio 2 against intermediate token 4,
times the intermediate price 3. -/
theorem twoHop_price5 (n : ℕ) :
    UI.getTokenPriceInUSD twoHopChain (n + 1 + 1) 5 twoHopPools
      = some 6 := by
  have h4 := twoHop_price4 n
  simp only [twoHopPools] at h4
  norm_num [UI.getTokenPriceInUSD, UI.findDirect, UI.findIndirect,
    UI.normBalance, twoHopPools, twoHopChain, normUnits, USDC_ADDRESS, h4]

/-- Counterexample to claim C2: token 5 of twoHopChain has no direct
USDC pool, yet a two-hop route 5 to 4 to USDC exists (the frontend
resolver prices it at 6 USD); the indexer resolver nevertheless returns
0 instead of recursing through the intermediate. -/
theorem indexer_misses_two_hop_route :
    Indexer.getTokenPriceInUSD twoHopChain 5 twoHopPoolAddrs = 0 ∧
    UI.getTokenPriceInUSD twoHopChain 3 5 twoHopPools = some 6 := by
  constructor
  · norm_num [Indexer.getTokenPriceInUSD, findUSDCPairPrice, twoHopChain,
      twoHopPoolAddrs, USDC_ADDRESS]
  · exact twoHop_price5 1

/-- Claim C1 (evidence of the code bug): the indexer price oracle reads
the pool stored reserve counters, not balances: two chains with
identical balanceOf reads but different stored counters get different
prices (2 against 3), while the pools-table row written by storePoolData
takes both of its reserve figures from the balanceOf reads. -/
theorem oracle_reads_stored_counters :
    driftedChain.balanceOf = syncedChain.balanceOf ∧
    Indexer.getTokenPriceInUSD driftedChain 9 [400] = 2 ∧
    Indexer.getTokenPriceInUSD syncedChain 9 [400] = 3 ∧
    (freshPoolRow driftedChain [400] 400).reserve_a =
      driftedChain.balanceOf USDC_ADDRESS 400 ∧
    (freshPoolRow driftedChain [400] 400).reserve_b =
      driftedChain.balanceOf 9 400 := by
  refine ⟨rfl, ?_, ?_, rfl, rfl⟩
  · norm_num [Indexer.getTokenPriceInUSD, findUSDCPairPrice, driftedChain,
      normUnits, USDC_ADDRESS]
  · norm_num [Indexer.getTokenPriceInUSD, findUSDCPairPrice, syncedChain,
      normUnits, USDC_ADDRESS]

/-- Claim C3 as amended: the block cursor advances to the head of the
range whenever the top-level reads of the cycle succeed — the
current-block lookup and, on a nonempty range, the PoolCreated log
query — no matter whether any per-pool swap-log query fails (those
exceptions are caught and the events dropped) and before any store write
runs. -/
theorem index_cursor_advance (w : World) (s : IndexerState) (cb lb : ℕ)
    (created : List Addr) (hb : w.blockNumber = some cb)
    (hl : s.lastProcessedBlock = some lb) (hrange : lb + 1 ≤ cb)
    (hpc : w.poolCreatedLogs = some created) :
    (index w s).lastProcessedBlock = some cb := by
  have hcond : ¬(lb + 1 ≤ cb ∧ w.poolCreatedLogs = none) := by
    simp [hpc]
  simp only [index, hb, hl, Option.getD_some]
  rw [if_neg hcond]
  simp [hrange]

/-- Witness for claim C3: in the failing-log world the hypotheses hold
concretely and the cursor lands on block 110. -/
theorem index_cursor_advance_witness :
    (index failingLogWorld preFailState).lastProcessedBlock = some 110 :=
  index_cursor_advance failingLogWorld preFailState 110 100 [] rfl rfl
    (by norm_num) rfl

/-- Counterexample to claim C3: a cycle in which the swap-log query for
pool 500 throws still advances the cursor from block 100 to block 110
and stores no swap events at all — the failed range is never retried,
contrary to the claim that any failing step keeps the previous cursor. -/
theorem cursor_advances_despite_failed_log_query :
    failingLogWorld.swapLogs 500 = none ∧
    (index failingLogWorld preFailState).lastProcessedBlock = some 110 ∧
    (index failingLogWorld preFailState).store.swap_events = [] := by
  refine ⟨rfl, ?_, ?_⟩
  · norm_num [index, failingLogWorld, preFailState, processSwapEvents,
      storePoolData, storePoolDataStep, storeSwapEvents, normUnits,
      dustThreshold, deletePoolRow]
    rfl
  · norm_num [index, failingLogWorld, preFailState, processSwapEvents,
      storePoolData, storePoolDataStep, storeSwapEvents, normUnits,
      dustThreshold, deletePoolRow]
    rfl

/-- Per-event volume is never negative. -/
theorem volumeUSD_nonneg (e : UI.EventRow) : 0 ≤ UI.volumeUSD e := by
  unfold UI.volumeUSD
  split
  · positivity
  · split
    · positivity
    · exact le_refl 0

/-- The metrics fold, characterized: total volume adds each event
contribution, total fees add 0.3 percent of each contribution, and each
daily bucket collects exactly the contributions of its calendar day. -/
theorem metrics_foldl_spec (l : List UI.EventRow) :
    ∀ m : UI.Metrics,
      (l.foldl UI.metricsStep m).totalVolume =
        m.totalVolume + (l.map UI.volumeUSD).sum ∧
      (l.foldl UI.metricsStep m).totalFees =
        m.totalFees + 3 / 1000 * (l.map UI.volumeUSD).sum ∧
      ∀ d, ((l.foldl UI.metricsStep m).daily d).1 =
          (m.daily d).1 +
            ((l.filter (fun e => UI.dateKey e.timestamp = d)).map
              UI.volumeUSD).sum ∧
        ((l.foldl UI.metricsStep m).daily d).2 =
          (m.daily d).2 +
            3 / 1000 *
              ((l.filter (fun e => UI.dateKey e.timestamp = d)).map
                UI.volumeUSD).sum := by
  induction l with
  | nil => intro m; simp
  | cons e rest ih =>
    intro m
    obtain ⟨hv, hf, hd⟩ := ih (UI.metricsStep m e)
    rw [List.foldl_cons]
    by_cases hpos : 0 < UI.volumeUSD e
    · have hstep : UI.metricsStep m e =
          { totalVolume := m.totalVolume + UI.volumeUSD e,
            totalFees := m.totalFees + UI.volumeUSD e * (3 / 1000),
            daily := fun d =>
              if d = UI.dateKey e.timestamp then
                ((m.daily d).1 + UI.volumeUSD e,
                  (m.daily d).2 + UI.volumeUSD e * (3 / 1000))
              else m.daily d } := by
        simp [UI.metricsStep, hpos]
      refine ⟨?_, ?_, ?_⟩
      · rw [hv, hstep]
        simp only [List.map_cons, List.sum_cons]
        ring
      · rw [hf, hstep]
        simp only [List.map_cons, List.sum_cons]
        ring
      · intro d
        obtain ⟨hd1, hd2⟩ := hd d
        by_cases hday : UI.dateKey e.timestamp = d
        · refine ⟨?_, ?_⟩
          · rw [hd1, hstep]
            simp [List.filter_cons, hday]
            ring
          · rw [hd2, hstep]
            simp [List.filter_cons, hday]
            ring
        · have hds : ¬ d = UI.dateKey e.timestamp := fun h => hday h.symm
          refine ⟨?_, ?_⟩
          · rw [hd1, hstep]
            simp [List.filter_cons, hday, hds]
          · rw [hd2, hstep]
            simp [List.filter_cons, hday, hds]
    · have hz : UI.volumeUSD e = 0 :=
        le_antisymm (not_lt.mp hpos) (volumeUSD_nonneg e)
      have hstep : UI.metricsStep m e = m := by
        simp [UI.metricsStep, hpos]
      refine ⟨?_, ?_, ?_⟩
      · rw [hv, hstep]
        simp [hz]
      · rw [hf, hstep]
        simp [hz]
      · intro d
        obtain ⟨hd1, hd2⟩ := hd d
        by_cases hday : UI.dateKey e.timestamp = d
        · exact ⟨by rw [hd1, hstep]; simp [List.filter_cons, hday, hz],
            by rw [hd2, hstep]; simp [List.filter_cons, hday, hz]⟩
        · exact ⟨by rw [hd1, hstep]; simp [List.filter_cons, hday],
            by rw [hd2, hstep]; simp [List.filter_cons, hday]⟩

/-- Claim C9: volume and fees over the rolling 30-day window are
computed from the persisted swap events as claimed: the total volume is
the sum over windowed events of the USDC-leg normalized amount (0 for
events with USDC on neither leg, per volumeUSD); total fees equal total
volume times the fixed 0.3 percent rate exactly; and each daily bucket
holds exactly the contributions of the events of that calendar day, with
its fees again 0.3 percent of its volume. -/
theorem fetchMetricsFast_spec (now : ℤ) (events : List UI.EventRow) :
    (UI.fetchMetricsFast now events).totalVolume =
      ((events.filter (UI.inWindow now)).map UI.volumeUSD).sum ∧
    (UI.fetchMetricsFast now events).totalFees =
      3 / 1000 * (UI.fetchMetricsFast now events).totalVolume ∧
    ∀ d, ((UI.fetchMetricsFast now events).daily d).1 =
        (((events.filter (UI.inWindow now)).filter
            (fun e => UI.dateKey e.timestamp = d)).map UI.volumeUSD).sum ∧
      ((UI.fetchMetricsFast now events).daily d).2 =
        3 / 1000 * ((UI.fetchMetricsFast now events).daily d).1 := by
  obtain ⟨hv, hf, hd⟩ :=
    metrics_foldl_spec (events.filter (UI.inWindow now)) UI.emptyMetrics
  unfold UI.fetchMetricsFast
  refine ⟨?_, ?_, ?_⟩
  · rw [hv]
    simp [UI.emptyMetrics]
  · rw [hf, hv]
    simp [UI.emptyMetrics]
  · intro d
    obtain ⟨hd1, hd2⟩ := hd d
    refine ⟨?_, ?_⟩
    · rw [hd1]
      simp [UI.emptyMetrics]
    · rw [hd2, hd1]
      simp [UI.emptyMetrics]

/-- Witness for claim C6 at three concrete logs. -/
theorem classifySwap_direction_witness :
    (∃ e, classifySwap 50 1 2 (fun _ => 0) sampleLogAIn = some e ∧
      e.tokenIn = 1 ∧ e.tokenOut = 2 ∧
      e.amountIn = sampleLogAIn.amountAIn ∧
      e.amountOut = sampleLogAIn.amountBOut) ∧
    (∃ e, classifySwap 50 1 2 (fun _ => 0) sampleLogBIn = some e ∧
      e.tokenIn = 2 ∧ e.tokenOut = 1 ∧
      e.amountIn = sampleLogBIn.amountBIn ∧
      e.amountOut = sampleLogBIn.amountAOut) ∧
    classifySwap 50 1 2 (fun _ => 0) sampleLogZero = none := by
  refine ⟨(classifySwap_direction 50 1 2 (fun _ => 0) sampleLogAIn).1
      (by decide),
    (classifySwap_direction 50 1 2 (fun _ => 0) sampleLogBIn).2.1
      (by decide) (by decide),
    (classifySwap_direction 50 1 2 (fun _ => 0) sampleLogZero).2.2
      (by decide) (by decide)⟩

end Ardefi
